import Mathlib

/-!
Verification of the experiment pipeline of the FineTuning-and-Inference-NLP
repository (task1.ipynb / task2.ipynb): stratified dataset partitioning,
the training configuration handed to the external trainer, and the
zero-shot inference harness that turns free-form generated text into a
binary label.

Strings are embedded as `List Char`; Python's substring test `"x" in s`
becomes `strContains`, `str.strip()` becomes `strip`, and the fallible
division in the accuracy computation returns an `Option`.
-/

/-- Whitespace characters removed by Python's `str.strip()` (ASCII subset). -/
def isPySpace (c : Char) : Bool :=
  c == ' ' || c == '\t' || c == '\n' || c == '\r' || c == '\x0b' || c == '\x0c'

/-- Python's `str.strip()`: remove leading and trailing whitespace. -/
def strip (s : List Char) : List Char :=
  ((s.dropWhile isPySpace).reverse.dropWhile isPySpace).reverse

/-- Python's substring containment test `needle in hay`. -/
def strContains (hay needle : List Char) : Bool :=
  match hay with
  | [] => needle.isEmpty
  | _ :: t => needle.isPrefixOf hay || strContains t needle

/-- `process_predictions` from task1.ipynb / task2.ipynb (identical in both):
for each generated prediction string, answer 0 if `"0"` occurs in it,
else 1 if `"1"` occurs in it, else `None` (model uncertain). -/
def process_predictions (predictions : List (List Char)) : List (Option Nat) :=
  match predictions with
  | [] => []
  | pred :: rest =>
    (if strContains pred ("0".toList) then some 0
     else if strContains pred ("1".toList) then some 1
     else none) :: process_predictions rest

/-- `limit_text_length` from the notebooks: truncate each record's chosen
text column to its first 500 characters. -/
def limit_text_length (texts : List (List Char)) : List (List Char) :=
  texts.map (fun t => t.take 500)

/-- The `generated_text` field of the transformers text-generation pipeline
output used by `generate_texts` (`output[0]["generated_text"]`): with the
pipeline's default `return_full_text=True`, it is the prompt followed by the
model's continuation.  The continuation itself is an arbitrary function
`cont` of the prompt (the generative model is an external capability). -/
def generated_text (cont : List Char → List Char) (prompt : List Char) :
    List Char :=
  prompt ++ cont prompt

/-- `generate_texts` from the notebooks: substitute each text into the prompt
template (`pre ++ text ++ suf`, the template has exactly one placeholder),
invoke the pipeline, and `.strip()` each `generated_text`. -/
def generate_texts (cont : List Char → List Char) (pre suf : List Char)
    (texts : List (List Char)) : List (List Char) :=
  texts.map (fun t => strip (generated_text cont (pre ++ t ++ suf)))

/-- The zero-shot path as composed in the notebooks: truncate each text to
500 characters, build prompts, generate, then extract binary labels. -/
def zero_shot_predictions (cont : List Char → List Char) (pre suf : List Char)
    (texts : List (List Char)) : List (Option Nat) :=
  process_predictions (generate_texts cont pre suf (limit_text_length texts))

/-- Part of task1's Turkish prompt template before the `text` placeholder. -/
def turkish_prompt_task1_pre : List Char :=
  ("Aşağıdaki meclis konuşmasına dayanarak, konuşmacının partisinin sol (0) ya da sağ (1) eğilimli olduğunu belirtiniz:\n\n").toList

/-- Part of task1's Turkish prompt template after the `text` placeholder. -/
def turkish_prompt_task1_suf : List Char := ("\n\nCevap:").toList

/-- Part of task1's English prompt template before the `text` placeholder. -/
def english_prompt_task1_pre : List Char :=
  ("Based on the following parliamentary speech, classify whether the speaker\x27s party leans left (0) or right (1):\n\n").toList

/-- Part of task1's English prompt template after the `text` placeholder. -/
def english_prompt_task1_suf : List Char := ("\n\nAnswer:").toList

/-- Part of task2's Turkish prompt template before the `text` placeholder. -/
def turkish_prompt_task2_pre : List Char :=
  ("Aşağıdaki meclis konuşmasına dayanarak, konuşmacının partisinin hükümette (0) ya da muhalefette (1) olduğunu belirtiniz:\n\n").toList

/-- Part of task2's Turkish prompt template after the `text` placeholder. -/
def turkish_prompt_task2_suf : List Char := ("\n\nCevap:").toList

/-- Part of task2's English prompt template before the `text` placeholder. -/
def english_prompt_task2_pre : List Char :=
  ("Based on the following parliamentary speech, classify whether the speaker\x27s party is governing (0) or opposition (1):\n\n").toList

/-- Part of task2's English prompt template after the `text` placeholder. -/
def english_prompt_task2_suf : List Char := ("\n\nAnswer:").toList

/-- A dataset record: `id, speaker, sex, text, text_en, label` with
`label ∈ {0,1}` (spec data model; the TSV schema read by
`load_and_preprocess_data`). -/
structure Record where
  id : Nat
  speaker : List Char
  sex : List Char
  text : List Char
  text_en : List Char
  label : Nat
deriving DecidableEq, Repr

/-- The error raised when a label stratum is too small to sample the
requested test fraction from it (spec error taxonomy). -/
inductive InsufficientDataError where
  | stratumTooSmall
deriving DecidableEq, Repr

/-- Modelled from the spec: deterministic seeded sampling of one label
stratum.  `k = ⌊length * num / den⌋` records go to the test part and the
remainder to the train part; which records are chosen is a deterministic
function of the seed (here: a seed-indexed rotation of the stratum).
Returns `(test, train)`. -/
def sampleStratum (s : List Record) (num den seed : Nat) :
    List Record × List Record :=
  let k := s.length * num / den
  let rot := s.drop (seed % s.length) ++ s.take (seed % s.length)
  (rot.take k, rot.drop k)

/-- A stratum of size `n` is too small for fraction `num/den` when sampling
would leave its test or its train part empty. -/
def stratumBad (n num den : Nat) : Bool :=
  n != 0 && (n * num / den == 0 || n * num / den == n)

/-- The label strata of a dataset: records labeled 0 and records labeled 1. -/
def strataOf (data : List Record) : List (List Record) :=
  [data.filter (fun r => r.label == 0), data.filter (fun r => r.label == 1)]

/-- Modelled from the spec: `stratified_split` of the notebooks delegates
the split to an external routine (`sklearn.train_test_split` with
`stratify=data[label]`); the spec describes the algorithm as: partition the
records by label value, then independently sample `test_fraction` of each
label stratum into the test set using the same seed across strata, remainder
into train; fail with `InsufficientDataError` when a stratum is too small.
The test fraction is the rational `testNum / testDen`.
Returns `(train, test)`. -/
def stratified_split (data : List Record) (testNum testDen random_state : Nat) :
    Except InsufficientDataError (List Record × List Record) :=
  let s0 := data.filter (fun r => r.label == 0)
  let s1 := data.filter (fun r => r.label == 1)
  if stratumBad s0.length testNum testDen || stratumBad s1.length testNum testDen then
    Except.error InsufficientDataError.stratumTooSmall
  else
    Except.ok
      ((sampleStratum s0 testNum testDen random_state).2 ++
         (sampleStratum s1 testNum testDen random_state).2,
       (sampleStratum s0 testNum testDen random_state).1 ++
         (sampleStratum s1 testNum testDen random_state).1)

/-- Evaluation / checkpoint-saving cadence of the trainer configuration. -/
inductive Strategy where
  | never
  | steps
  | epoch
deriving DecidableEq, Repr

/-- The `TrainingArguments` constructed by `train_model` in the notebooks
(fields as in the source cell). -/
structure TrainingArguments where
  output_dir : List Char
  eval_strategy : Strategy
  save_strategy : Strategy
  learning_rate : ℚ
  per_device_train_batch_size : Nat
  per_device_eval_batch_size : Nat
  num_train_epochs : Nat
  weight_decay : ℚ
  save_total_limit : Nat
  load_best_model_at_end : Bool
  logging_steps : Nat

/-- The concrete training configuration of `train_model` in task1.ipynb. -/
def task1_training_args : TrainingArguments where
  output_dir := ("./results_task1").toList
  eval_strategy := Strategy.epoch
  save_strategy := Strategy.epoch
  learning_rate := 2 / 100000
  per_device_train_batch_size := 16
  per_device_eval_batch_size := 16
  num_train_epochs := 3
  weight_decay := 1 / 100
  save_total_limit := 2
  load_best_model_at_end := true
  logging_steps := 50

/-- The concrete training configuration of `train_model` in task2.ipynb
(identical to task1 except for the output directory). -/
def task2_training_args : TrainingArguments where
  output_dir := ("./results_task2").toList
  eval_strategy := Strategy.epoch
  save_strategy := Strategy.epoch
  learning_rate := 2 / 100000
  per_device_train_batch_size := 16
  per_device_eval_batch_size := 16
  num_train_epochs := 3
  weight_decay := 1 / 100
  save_total_limit := 2
  load_best_model_at_end := true
  logging_steps := 50

/-- Lowest evaluation loss among a list of recorded losses
(`none` when nothing was recorded). -/
def minLoss : List ℚ → Option ℚ
  | [] => none
  | c :: cs => some ((minLoss cs).elim c (fun m => min c m))

/-- Combine the minima of two recordings. -/
def ominQ : Option ℚ → Option ℚ → Option ℚ
  | none, b => b
  | some x, none => some x
  | some x, some y => some (min x y)

/-- Modelled from the spec: one checkpoint-rotation step of the external
trainer.  A new checkpoint (identified by its evaluation loss) is saved at
the end of an epoch; when the retained set would exceed `save_total_limit`,
the oldest checkpoint is deleted, except that the best checkpoint seen (the
first one attaining the lowest loss) is never deleted — the retention policy
the configuration `save_total_limit` together with `load_best_model_at_end`
demands from the trainer. -/
def stepEpoch (limit : Nat) (st : List ℚ) (x : ℚ) : List ℚ :=
  let l := st ++ [x]
  if l.length ≤ limit then l
  else if l.tail.all (fun d => decide (l.headI ≤ d)) then l.headI :: l.tail.tail
  else l.tail

/-- The checkpoints retained on disk after saving one checkpoint per entry
of `losses`, under rotation limit `limit`. -/
def savedCheckpoints (limit : Nat) (losses : List ℚ) : List ℚ :=
  losses.foldl (stepEpoch limit) []

/-- Outcome of a training run: the recorded per-epoch evaluation losses, the
checkpoints retained on disk at the end, and the evaluation loss of the
model state retained in memory at the end of training. -/
structure TrainOutcome where
  evalLosses : List ℚ
  checkpoints : List ℚ
  finalModelLoss : Option ℚ
deriving DecidableEq, Repr

/-- Modelled from the spec: the behaviour the external trainable-model
capability exhibits under a given configuration, as a function of the
per-epoch evaluation losses the run would produce.  With `eval_strategy =
epoch` one loss is recorded per epoch; with `save_strategy = epoch` one
checkpoint is saved per epoch under the rotation policy; with
`load_best_model_at_end` the model state retained at the end is the
checkpoint with the lowest recorded loss, otherwise the last saved one. -/
def train_run (args : TrainingArguments) (losses : List ℚ) : TrainOutcome :=
  let evalLosses :=
    if args.eval_strategy = Strategy.epoch then losses.take args.num_train_epochs
    else []
  let saved :=
    if args.save_strategy = Strategy.epoch then
      savedCheckpoints args.save_total_limit evalLosses
    else []
  { evalLosses := evalLosses
    checkpoints := saved
    finalModelLoss :=
      if args.load_best_model_at_end then minLoss saved else saved.getLast? }

/-- The per-record correctness list of the zero-shot evaluation
(`[binary == label for binary, label in zip(...)]` in the notebooks):
an extracted prediction is correct exactly when it equals the true label;
an absent (`none`, "unknown") prediction never does. -/
def correct_predictions (binary : List (Option Nat)) (labels : List Nat) :
    List Bool :=
  List.zipWith (fun b l => b == some l) binary labels

/-- The accuracy computation of the notebooks:
`sum(correct_predictions) / len(correct_predictions)` — Python integer-true
counting divided by the length.  The division has no guard; on an empty
list Python raises `ZeroDivisionError`, embedded here as `none`. -/
def accuracy_of (correct : List Bool) : Option ℚ :=
  if correct.length = 0 then none
  else some ((correct.countP id : ℚ) / (correct.length : ℚ))

/-- A minimal record used in concrete witness datasets. -/
def wRec (i lbl : Nat) : Record :=
  { id := i, speaker := [], sex := [], text := [], text_en := [], label := lbl }

/-- A concrete four-record dataset, two records per label. -/
def D4 : List Record := [wRec 0 0, wRec 1 0, wRec 2 1, wRec 3 1]

/-- The dataset of end-to-end scenario 1: 100 records, 60 labeled 1 and 40
labeled 0. -/
def D100 : List Record :=
  (List.range 60).map (fun i => wRec i 1) ++
    (List.range 40).map (fun i => wRec (60 + i) 0)

/-! ### String lemmas -/

theorem strContains_singleton (s : List Char) (c : Char) :
    strContains s [c] = true ↔ c ∈ s := by
  induction s with
  | nil => simp [strContains]
  | cons h t ih =>
    simp only [strContains, List.isPrefixOf, Bool.or_eq_true, Bool.and_eq_true,
      beq_iff_eq, List.mem_cons, ih]
    constructor
    · rintro (⟨rfl, _⟩ | hm)
      · exact Or.inl rfl
      · exact Or.inr hm
    · rintro (rfl | hm)
      · exact Or.inl ⟨rfl, by simp [List.isPrefixOf]⟩
      · exact Or.inr hm

theorem mem_dropWhile_of_mem (p : Char → Bool) (c : Char) :
    ∀ l : List Char, c ∈ l → p c = false → c ∈ l.dropWhile p := by
  intro l hm hp
  induction l with
  | nil => exact absurd hm (List.not_mem_nil c)
  | cons h t ih =>
    rw [List.dropWhile_cons]
    rcases List.mem_cons.mp hm with rfl | ht
    · simp [hp]
    · by_cases hh : p h = true
      · simp [hh]; exact ih ht
      · simp [hh]; exact Or.inr ht

theorem mem_strip_of_mem (s : List Char) (c : Char) (hm : c ∈ s)
    (hp : isPySpace c = false) : c ∈ strip s := by
  unfold strip
  rw [List.mem_reverse]
  apply mem_dropWhile_of_mem _ _ _ _ hp
  rw [List.mem_reverse]
  exact mem_dropWhile_of_mem _ _ _ hm hp

theorem digit_zero_toList : ("0").toList = ['0'] := rfl

theorem digit_one_toList : ("1").toList = ['1'] := rfl

theorem process_predictions_of_mem_zero (s : List Char) (h : '0' ∈ s) :
    process_predictions [s] = [some 0] := by
  simp only [process_predictions, digit_zero_toList]
  rw [if_pos ((strContains_singleton s '0').mpr h)]

/-- Every zero-shot prediction is `some 0` as soon as the template part
before the placeholder contains the character `0`, whatever the model's
continuation: the scanned `generated_text` starts with the prompt. -/
theorem zero_shot_const_zero (cont : List Char → List Char)
    (pre suf : List Char) (h : '0' ∈ pre) :
    ∀ texts, zero_shot_predictions cont pre suf texts =
      texts.map (fun _ => some 0) := by
  intro texts
  induction texts with
  | nil => rfl
  | cons t ts ih =>
    have hz : '0' ∈ strip (generated_text cont (pre ++ t.take 500 ++ suf)) := by
      apply mem_strip_of_mem _ _ _ (by decide)
      unfold generated_text
      exact List.mem_append_left _ (List.mem_append_left _ (List.mem_append_left _ h))
    simp only [zero_shot_predictions, limit_text_length, generate_texts,
      List.map_cons, process_predictions, digit_zero_toList, digit_one_toList] at ih ⊢
    rw [if_pos ((strContains_singleton _ '0').mpr hz)]
    exact congrArg _ ih

/-! ### Claims about answer extraction (C1, C2, C3) -/

/-- C1: for every generated string `s`, `process_predictions [s]` returns 0
if the character `0` occurs anywhere in `s`; otherwise 1 if `1` occurs
anywhere in `s`; otherwise unknown (`none`).  In particular a string
containing both digits yields 0 (the 0-branch is checked first) and a
string containing neither yields unknown. -/
theorem answer_extraction_priority_rule (s : List Char) :
    process_predictions [s] =
      [if '0' ∈ s then some 0 else if '1' ∈ s then some 1 else none] := by
  simp only [process_predictions, digit_zero_toList, digit_one_toList]
  by_cases h0 : '0' ∈ s
  · rw [if_pos ((strContains_singleton s '0').mpr h0), if_pos h0]
  · rw [if_neg h0,
      if_neg (fun hc => h0 ((strContains_singleton s '0').mp hc))]
    by_cases h1 : '1' ∈ s
    · rw [if_pos ((strContains_singleton s '1').mpr h1), if_pos h1]
    · rw [if_neg h1,
        if_neg (fun hc => h1 ((strContains_singleton s '1').mp hc))]

/-- C2 (code evaluation at the failing input): a record whose `text_en` is
truncated to 500 characters and fed through task1's English prompt template,
with the generative model's continuation being exactly `"Answer: 1"`, gets
binary prediction 0 — not 1 — because the scanned `generated_text` begins
with the prompt, whose `"(0)"` wording contains the character `0`. -/
theorem truncated_record_answer1_extracts_zero :
    zero_shot_predictions (fun _ => ("Answer: 1").toList)
        english_prompt_task1_pre english_prompt_task1_suf
        [("The economy is strong.").toList] = [some 0] ∧
      zero_shot_predictions (fun _ => ("Answer: 1").toList)
        english_prompt_task1_pre english_prompt_task1_suf
        [("The economy is strong.").toList] ≠ [some 1] := by
  constructor
  · decide
  · decide

/-- C3: the string scanned by the answer extraction is
`output[0]["generated_text"]`, which begins with the prompt itself, and
every prompt template of both notebooks contains the literal character `0`
in its `"(0)"` wording; hence for every input record list and every possible
model continuation, the zero-shot path as composed in the notebooks extracts
binary prediction 0 for each record — 1 and unknown are never produced. -/
theorem zero_shot_always_predicts_zero (cont : List Char → List Char)
    (texts : List (List Char)) :
    zero_shot_predictions cont turkish_prompt_task1_pre turkish_prompt_task1_suf
        texts = texts.map (fun _ => some 0) ∧
      zero_shot_predictions cont english_prompt_task1_pre english_prompt_task1_suf
        texts = texts.map (fun _ => some 0) ∧
      zero_shot_predictions cont turkish_prompt_task2_pre turkish_prompt_task2_suf
        texts = texts.map (fun _ => some 0) ∧
      zero_shot_predictions cont english_prompt_task2_pre english_prompt_task2_suf
        texts = texts.map (fun _ => some 0) :=
  ⟨zero_shot_const_zero cont _ _ (by decide) texts,
   zero_shot_const_zero cont _ _ (by decide) texts,
   zero_shot_const_zero cont _ _ (by decide) texts,
   zero_shot_const_zero cont _ _ (by decide) texts⟩

/-! ### Splitter lemmas -/

theorem drop_append_take_perm (l : List Record) (n : Nat) :
    (l.drop n ++ l.take n).Perm l := by
  conv_rhs => rw [← List.take_append_drop n l]
  exact List.perm_append_comm

theorem sampleStratum_perm (s : List Record) (num den seed : Nat) :
    ((sampleStratum s num den seed).2 ++ (sampleStratum s num den seed).1).Perm
      s := by
  unfold sampleStratum
  exact (drop_append_take_perm _ _).trans (drop_append_take_perm _ _)

theorem append_exchange_perm (a b c d : List Record) :
    ((a ++ b) ++ (c ++ d)).Perm ((a ++ c) ++ (b ++ d)) := by
  have hmid : (b ++ (c ++ d)).Perm (c ++ (b ++ d)) := by
    rw [← List.append_assoc b c d, ← List.append_assoc c b d]
    exact List.Perm.append_right d List.perm_append_comm
  rw [List.append_assoc a b (c ++ d), List.append_assoc a c (b ++ d)]
  exact List.Perm.append_left a hmid

theorem filter_label01_perm (data : List Record)
    (hwf : ∀ r ∈ data, r.label ≤ 1) :
    (data.filter (fun r => r.label == 0) ++
       data.filter (fun r => r.label == 1)).Perm data := by
  have hcongr : data.filter (fun r => r.label == 1) =
      data.filter (fun r => !(r.label == 0)) := by
    apply List.filter_congr
    intro r hr
    rcases Nat.le_one_iff_eq_zero_or_eq_one.mp (hwf r hr) with h | h <;>
      simp [h]
  rw [hcongr]
  exact List.filter_append_perm _ data

/-! ### Claims about the stratified split (C4, C5, C6, C9) -/

/-- C4: for every input dataset (with binary labels) and every test fraction,
when the stratified split succeeds, train and test together are a
permutation of the input — no record lost, none duplicated — and, when the
input has no duplicate records, train and test are disjoint. -/
theorem stratified_split_partition (data : List Record)
    (num den seed : Nat) (hwf : ∀ r ∈ data, r.label ≤ 1)
    (train test : List Record)
    (h : stratified_split data num den seed = Except.ok (train, test)) :
    (train ++ test).Perm data ∧ (data.Nodup → train.Disjoint test) := by
  unfold stratified_split at h
  by_cases hc : (stratumBad (data.filter (fun r => r.label == 0)).length num den ||
      stratumBad (data.filter (fun r => r.label == 1)).length num den) = true
  · rw [if_pos hc] at h
    exact absurd h (by simp)
  · rw [if_neg hc] at h
    rw [Except.ok.injEq, Prod.mk.injEq] at h
    obtain ⟨htr, hte⟩ := h
    have hperm : (train ++ test).Perm data := by
      rw [← htr, ← hte]
      refine (append_exchange_perm _ _ _ _).trans ?_
      refine (List.Perm.append (sampleStratum_perm _ num den seed)
        (sampleStratum_perm _ num den seed)).trans ?_
      exact filter_label01_perm data hwf
    refine ⟨hperm, fun hnd => ?_⟩
    exact List.disjoint_of_nodup_append (hperm.nodup_iff.mpr hnd)

/-- Witness for C4 at a concrete dataset of four records. -/
theorem stratified_split_partition_witness :
    (([wRec 1 0, wRec 3 1] ++ [wRec 0 0, wRec 2 1]).Perm D4) ∧
      (D4.Nodup → ([wRec 1 0, wRec 3 1] : List Record).Disjoint
        [wRec 0 0, wRec 2 1]) :=
  stratified_split_partition D4 1 2 0 (by decide)
    [wRec 1 0, wRec 3 1] [wRec 0 0, wRec 2 1] rfl

/-- C5: the split is a deterministic function of
`(dataset, test_fraction, seed)` alone — the model threads every source of
randomness through the explicit seed argument, so two calls with the same
dataset, the same fraction and the same `random_state` return identical
`(train, test)` partitions, ordering included. -/
theorem stratified_split_deterministic (data : List Record)
    (num den seed : Nat) :
    stratified_split data num den seed = stratified_split data num den seed :=
  rfl

/-- C6: end-to-end scenario 1 — a dataset of 100 records, 60 labeled 1 and
40 labeled 0, test fraction 1/10, seed 42: the test set has 10 records, of
which exactly 6 carry label 1 and 4 carry label 0 (within the ±1 the claim
allows for stratified rounding), and the train set keeps the other 90. -/
theorem stratified_split_scenario_100 :
    (stratified_split D100 1 10 42).map
      (fun p => (p.2.length,
        (p.2.filter (fun r => r.label == 1)).length,
        (p.2.filter (fun r => r.label == 0)).length,
        p.1.length)) = Except.ok (10, 6, 4, 90) := rfl

theorem stratumBad_iff (s : List Record) (num den : Nat) :
    stratumBad s.length num den = true ↔
      s ≠ [] ∧ (s.length * num / den = 0 ∨ s.length * num / den = s.length) := by
  simp [stratumBad, Bool.and_eq_true, Bool.or_eq_true, bne_iff_ne,
    beq_iff_eq, List.length_eq_zero, ne_eq]

/-- C9: for a test fraction in (0,1), the split fails with
`InsufficientDataError` exactly when some (non-empty) label stratum is too
small to sample the requested fraction from it without leaving that
stratum's test part (or train part) empty; on every other input it
succeeds. -/
theorem stratified_split_insufficient_data_iff (data : List Record)
    (num den seed : Nat) (h1 : 0 < num) (h2 : num < den) :
    (stratified_split data num den seed =
        Except.error InsufficientDataError.stratumTooSmall) ↔
      ∃ s ∈ strataOf data, s ≠ [] ∧
        (s.length * num / den = 0 ∨ s.length * num / den = s.length) := by
  unfold stratified_split strataOf
  by_cases hc : (stratumBad (data.filter (fun r => r.label == 0)).length num den ||
      stratumBad (data.filter (fun r => r.label == 1)).length num den) = true
  · rw [if_pos hc]
    constructor
    · intro _
      rcases Bool.or_eq_true .. |>.mp hc with hb | hb
      · exact ⟨_, by simp, (stratumBad_iff _ _ _).mp hb⟩
      · exact ⟨_, by simp, (stratumBad_iff _ _ _).mp hb⟩
    · intro _
      rfl
  · rw [if_neg hc]
    constructor
    · intro h
      exact absurd h (by simp)
    · rintro ⟨s, hs, hcond⟩
      exfalso
      apply hc
      simp only [List.mem_cons, List.not_mem_nil, or_false] at hs
      rcases hs with rfl | rfl
      · exact Bool.or_eq_true .. |>.mpr
          (Or.inl ((stratumBad_iff _ _ _).mpr hcond))
      · exact Bool.or_eq_true .. |>.mpr
          (Or.inr ((stratumBad_iff _ _ _).mpr hcond))

/-- Witness for C9: with fraction 1/10 both strata of the four-record
dataset have `⌊2 * 1/10⌋ = 0` test records, so the split fails. -/
theorem stratified_split_insufficient_data_iff_witness :
    0 < 1 ∧ 1 < 10 ∧
      ((stratified_split D4 1 10 7 =
          Except.error InsufficientDataError.stratumTooSmall) ↔
        ∃ s ∈ strataOf D4, s ≠ [] ∧
          (s.length * 1 / 10 = 0 ∨ s.length * 1 / 10 = s.length)) :=
  ⟨by decide, by decide,
    stratified_split_insufficient_data_iff D4 1 10 7 (by decide) (by decide)⟩

/-! ### Checkpoint-retention lemmas -/

theorem minLoss_mem : ∀ (l : List ℚ) (m : ℚ), minLoss l = some m → m ∈ l := by
  intro l
  induction l with
  | nil =>
    intro m h
    exact absurd h (by simp [minLoss])
  | cons c cs ih =>
    intro m h
    rw [minLoss] at h
    cases hcs : minLoss cs with
    | none =>
      rw [hcs] at h
      simp only [Option.elim, Option.some.injEq] at h
      rw [← h]
      exact List.mem_cons_self c cs
    | some m' =>
      rw [hcs] at h
      simp only [Option.elim, Option.some.injEq] at h
      rcases le_total c m' with hle | hle
      · rw [← h, min_eq_left hle]
        exact List.mem_cons_self c cs
      · rw [← h, min_eq_right hle]
        exact List.mem_cons_of_mem c (ih m' hcs)

theorem minLoss_le_of_mem :
    ∀ (l : List ℚ) (d m : ℚ), d ∈ l → minLoss l = some m → m ≤ d := by
  intro l
  induction l with
  | nil =>
    intro d m hd _
    exact absurd hd (List.not_mem_nil d)
  | cons c cs ih =>
    intro d m hd h
    rw [minLoss] at h
    cases hcs : minLoss cs with
    | none =>
      rw [hcs] at h
      simp only [Option.elim, Option.some.injEq] at h
      have hnil : cs = [] := by
        cases cs with
        | nil => rfl
        | cons x xs => exact absurd hcs (by simp [minLoss])
      subst hnil
      rcases List.mem_singleton.mp hd with rfl
      exact le_of_eq h.symm
    | some m' =>
      rw [hcs] at h
      simp only [Option.elim, Option.some.injEq] at h
      rcases List.mem_cons.mp hd with rfl | hdcs
      · rw [← h]
        exact min_le_left ..
      · rw [← h]
        exact le_trans (min_le_right ..) (ih d m' hdcs hcs)

theorem minLoss_cons_of_le (c : ℚ) (l : List ℚ) (hle : ∀ d ∈ l, c ≤ d) :
    minLoss (c :: l) = some c := by
  rw [minLoss]
  cases hl : minLoss l with
  | none => rfl
  | some m =>
    simp only [Option.elim, Option.some.injEq]
    exact min_eq_left (hle m (minLoss_mem l m hl))

theorem ominQ_none (o : Option ℚ) : ominQ none o = o := by
  cases o <;> rfl

theorem minLoss_append (a b : List ℚ) :
    minLoss (a ++ b) = ominQ (minLoss a) (minLoss b) := by
  induction a with
  | nil =>
    rw [List.nil_append, show minLoss ([] : List ℚ) = none from rfl, ominQ_none]
  | cons c a ih =>
    rw [List.cons_append, minLoss, ih, minLoss]
    cases ha : minLoss a with
    | none =>
      cases hb : minLoss b with
      | none => rfl
      | some y => simp [ominQ]
    | some x =>
      cases hb : minLoss b with
      | none => rfl
      | some y => simp [ominQ, min_assoc]

theorem minLoss_stepEpoch (limit : Nat) (st : List ℚ) (x : ℚ) :
    minLoss (stepEpoch limit st x) = minLoss (st ++ [x]) := by
  unfold stepEpoch
  by_cases hlen : (st ++ [x]).length ≤ limit
  · rw [if_pos hlen]
  · rw [if_neg hlen]
    obtain ⟨c, cs, hcons⟩ : ∃ c cs, st ++ [x] = c :: cs := by
      cases hst : st ++ [x] with
      | nil => exact absurd hst (by simp)
      | cons c cs => exact ⟨c, cs, rfl⟩
    rw [hcons]
    simp only [List.headI, List.tail_cons]
    by_cases hall : cs.all (fun d => decide (c ≤ d)) = true
    · rw [if_pos hall]
      have hle : ∀ d ∈ cs, c ≤ d := by
        intro d hd
        exact of_decide_eq_true (List.all_eq_true.mp hall d hd)
      rw [minLoss_cons_of_le c cs hle,
        minLoss_cons_of_le c cs.tail (fun d hd => hle d (List.mem_of_mem_tail hd))]
    · rw [if_neg hall]
      have hex : ∃ d ∈ cs, ¬ c ≤ d := by
        by_contra hno
        push_neg at hno
        exact hall (List.all_eq_true.mpr (fun d hd => decide_eq_true (hno d hd)))
      obtain ⟨d, hd, hdc⟩ := hex
      obtain ⟨m, hm⟩ : ∃ m, minLoss cs = some m := by
        cases cs with
        | nil => exact absurd hd (List.not_mem_nil d)
        | cons y ys => exact ⟨(minLoss ys).elim y (fun z => min y z), rfl⟩
      have hmc : m ≤ c :=
        le_trans (minLoss_le_of_mem cs d m hd hm) (le_of_not_le hdc)
      simp only [minLoss, hm, Option.elim]
      rw [min_eq_right hmc]

theorem length_stepEpoch_le (limit : Nat) (st : List ℚ) (x : ℚ)
    (hlim : 1 ≤ limit) (hst : st.length ≤ limit) :
    (stepEpoch limit st x).length ≤ limit := by
  unfold stepEpoch
  by_cases hlen : (st ++ [x]).length ≤ limit
  · rw [if_pos hlen]
    exact hlen
  · rw [if_neg hlen]
    have hlen' : (st ++ [x]).length = limit + 1 := by
      rw [List.length_append] at hlen ⊢
      simp only [List.length_singleton] at hlen ⊢
      omega
    obtain ⟨c, cs, hcons⟩ : ∃ c cs, st ++ [x] = c :: cs := by
      cases hst' : st ++ [x] with
      | nil => exact absurd hst' (by simp)
      | cons c cs => exact ⟨c, cs, rfl⟩
    rw [hcons]
    rw [hcons] at hlen'
    simp only [List.length_cons] at hlen'
    simp only [List.headI, List.tail_cons]
    by_cases hall : cs.all (fun d => decide (c ≤ d)) = true
    · rw [if_pos hall]
      simp only [List.length_cons, List.length_tail]
      omega
    · rw [if_neg hall]
      omega

theorem length_foldl_stepEpoch_le (limit : Nat) (hlim : 1 ≤ limit) :
    ∀ (losses : List ℚ) (st : List ℚ), st.length ≤ limit →
      (losses.foldl (stepEpoch limit) st).length ≤ limit := by
  intro losses
  induction losses with
  | nil =>
    intro st hst
    exact hst
  | cons x xs ih =>
    intro st hst
    exact ih (stepEpoch limit st x) (length_stepEpoch_le limit st x hlim hst)

theorem minLoss_foldl_stepEpoch (limit : Nat) :
    ∀ (losses : List ℚ) (st : List ℚ),
      minLoss (losses.foldl (stepEpoch limit) st) = minLoss (st ++ losses) := by
  intro losses
  induction losses with
  | nil =>
    intro st
    rw [List.append_nil]
    rfl
  | cons x xs ih =>
    intro st
    rw [List.foldl_cons, ih (stepEpoch limit st x), minLoss_append,
      minLoss_stepEpoch, ← minLoss_append, List.append_assoc]
    rfl

theorem minLoss_savedCheckpoints (limit : Nat) (losses : List ℚ) :
    minLoss (savedCheckpoints limit losses) = minLoss losses := by
  unfold savedCheckpoints
  rw [minLoss_foldl_stepEpoch, List.nil_append]

/-! ### Claims about training configuration and accuracy (C8, C7, C10) -/

/-- C8: the training configuration of `train_model` evaluates and saves one
checkpoint per epoch (`eval_strategy = save_strategy = epoch`, 3 epochs); at
most `save_total_limit = 2` checkpoints are retained on persistent storage
at any point of the run; and with `load_best_model_at_end` the model state
retained at the end of training is the checkpoint with the lowest recorded
evaluation loss — not necessarily the final epoch's weights. -/
theorem training_config_checkpoint_retention (losses : List ℚ)
    (h : task1_training_args.num_train_epochs ≤ losses.length) :
    task1_training_args.eval_strategy = Strategy.epoch ∧
      task1_training_args.save_strategy = Strategy.epoch ∧
      task1_training_args.num_train_epochs = 3 ∧
      task1_training_args.save_total_limit = 2 ∧
      task1_training_args.load_best_model_at_end = true ∧
      (train_run task1_training_args losses).evalLosses.length = 3 ∧
      (∀ k : Nat, (savedCheckpoints task1_training_args.save_total_limit
        ((train_run task1_training_args losses).evalLosses.take k)).length ≤ 2) ∧
      (train_run task1_training_args losses).checkpoints.length ≤ 2 ∧
      (train_run task1_training_args losses).finalModelLoss =
        minLoss ((train_run task1_training_args losses).evalLosses) := by
  have hepochs : task1_training_args.num_train_epochs = 3 := rfl
  have hrun : train_run task1_training_args losses =
      { evalLosses := losses.take 3
        checkpoints := savedCheckpoints 2 (losses.take 3)
        finalModelLoss := minLoss (savedCheckpoints 2 (losses.take 3)) } := rfl
  rw [hepochs] at h
  refine ⟨rfl, rfl, rfl, rfl, rfl, ?_, ?_, ?_, ?_⟩
  · rw [hrun]
    simp only [List.length_take]
    omega
  · intro k
    rw [hrun]
    exact length_foldl_stepEpoch_le 2 (by omega) _ [] (by simp)
  · rw [hrun]
    exact length_foldl_stepEpoch_le 2 (by omega) _ [] (by simp)
  · rw [hrun]
    exact minLoss_savedCheckpoints 2 (losses.take 3)

/-- Witness for C8 on the concrete loss sequence `[2, 1, 3]`: the retained
model has loss 1 (the epoch-2 checkpoint), not the final epoch's loss 3. -/
theorem training_config_checkpoint_retention_witness :
    task1_training_args.num_train_epochs ≤ ([2, 1, 3] : List ℚ).length ∧
      (train_run task1_training_args [2, 1, 3]).finalModelLoss =
        minLoss ((train_run task1_training_args [2, 1, 3]).evalLosses) ∧
      (train_run task1_training_args [2, 1, 3]).finalModelLoss = some 1 ∧
      ([2, 1, 3] : List ℚ).getLast? = some 3 :=
  ⟨by decide,
   (training_config_checkpoint_retention [2, 1, 3] (by decide)).2.2.2.2.2.2.2.2,
   by decide, by decide⟩

/-- C7: unknown predictions are kept in the zero-shot results — the
extraction produces one entry per input record — and an unknown (`none`)
prediction never matches a true label, so it is counted as incorrect by the
accuracy computation; for a batch of 10 predictions of which exactly 4 equal
their true label the computed accuracy is 2/5 = 0.40. -/
theorem unknown_predictions_retained_and_incorrect :
    (∀ preds, (process_predictions preds).length = preds.length) ∧
      (∀ (bs : List (Option Nat)) (lbl : Nat) (ls : List Nat),
        correct_predictions (none :: bs) (lbl :: ls) =
          false :: correct_predictions bs ls) ∧
      accuracy_of (correct_predictions
        [some 0, some 0, some 0, some 0, none, none, none, some 1, some 1, none]
        [0, 0, 0, 0, 0, 0, 0, 0, 0, 0]) = some (2 / 5) := by
  refine ⟨?_, ?_, ?_⟩
  · intro preds
    induction preds with
    | nil => rfl
    | cons p ps ih =>
      simp only [process_predictions, List.length_cons, ih]
  · intro bs lbl ls
    rfl
  · show accuracy_of
      [true, true, true, true, false, false, false, false, false, false] =
        some (2 / 5)
    rw [show accuracy_of
        [true, true, true, true, false, false, false, false, false, false] =
        some ((4 : ℚ) / 10) from rfl]
    norm_num

/-- C10: the zero-shot accuracy computation divides by the length of the
correctness list with no guard — on an empty record sequence the division
fails (`ZeroDivisionError`, embedded as `none`); on any non-empty record
sequence it is defined. -/
theorem accuracy_empty_unguarded :
    accuracy_of (correct_predictions [] []) = none ∧
      ∀ (bs : List (Option Nat)) (ls : List Nat), bs ≠ [] → ls ≠ [] →
        (accuracy_of (correct_predictions bs ls)).isSome = true := by
  constructor
  · rfl
  · intro bs ls hbs hls
    cases bs with
    | nil => exact absurd rfl hbs
    | cons b bs' =>
      cases ls with
      | nil => exact absurd rfl hls
      | cons l ls' =>
        rw [correct_predictions, List.zipWith_cons_cons]
        unfold accuracy_of
        rw [if_neg (by simp)]
        rfl

/-- Witness for C10 at a concrete non-empty prediction batch. -/
theorem accuracy_empty_unguarded_witness :
    (accuracy_of (correct_predictions [some 0] [0])).isSome = true :=
  accuracy_empty_unguarded.2 [some 0] [0] (by simp) (by simp)
